import Mathlib

/-!
Verification development for the aviator-winelink catalog application
(`app.py`). The asset-reconciliation and catalog-assembly logic of the
Flask application is embedded shallowly: Python strings become `List Char`
(kernel-computable, unlike built-in `String` functions), directory
listings become explicit lists of named entries with a regular-file flag,
the SQLAlchemy record store becomes an explicit list of `Vine` records (an
`Except` value where store failure matters), and `json.loads` becomes an
explicit parse-function parameter returning `Option PyVal`.
-/

/-- Python strings, modelled as lists of characters so that every
operation reduces in the kernel. The `None`-able text columns of the
`Vine` model are conflated with the empty string, exactly as the source
does via `(value or "")` and truthiness tests. -/
abbrev Str := List Char

/-- Coerce a Lean string literal into the model's string type. -/
def str (s : String) : Str := s.toList

/-- Python `str.lower()` (ASCII case folding, which covers every filename
and flag the application manipulates). -/
def lower (s : Str) : Str := s.map Char.toLower

/-- Python `str.isspace()` characters relevant to `str.strip()` (ASCII
whitespace). -/
def is_space_char (c : Char) : Bool :=
  c = ' ' || c = '\t' || c = '\n' || c = '\r' || c = '\x0b' || c = '\x0c'

/-- Python `str.strip()`: remove leading and trailing whitespace. -/
def strip (s : Str) : Str :=
  ((s.dropWhile is_space_char).reverse.dropWhile is_space_char).reverse

/-- Index of the last occurrence of a character in a string, if any. -/
def last_idx_of (c : Char) : Str → Option Nat
  | [] => none
  | x :: xs =>
    match last_idx_of c xs with
    | some i => some (i + 1)
    | none => if x = c then some 0 else none

/-- Python `os.path.splitext`: split a path into root and extension. The
extension begins at the last dot that lies after the last path separator,
provided some earlier character of the basename is not a dot (so fully
dotted basenames such as `".bashrc"` or `".."` have no extension). -/
def splitext (p : Str) : Str × Str :=
  let bstart : Nat :=
    match last_idx_of '/' p with
    | none => 0
    | some i => i + 1
  match last_idx_of '.' p with
  | none => (p, [])
  | some d =>
    if bstart ≤ d && ((p.drop bstart).take (d - bstart)).any (fun c => c ≠ '.') then
      (p.take d, p.drop d)
    else (p, [])

/-- Python `os.path.basename` restricted to the final path component
(used only to state what "stripping directory components" would mean; the
application itself never calls it). -/
def basename (p : Str) : Str :=
  match last_idx_of '/' p with
  | none => p
  | some i => p.drop (i + 1)

/-- Keep the first occurrence of each element, dropping later duplicates.
Used to give Python's sets and dict-key views a canonical list form; every
statement about them is membership-level, so the particular order is
irrelevant. -/
def dedup {α : Type} [DecidableEq α] : List α → List α
  | [] => []
  | x :: xs => x :: (dedup xs).filter (fun y => decide (y ≠ x))

/-- Insert an element into a list relative to a boolean "less or equal"
test, before the first element it compares at-or-below. -/
def insert_le {α : Type} (le : α → α → Bool) (x : α) : List α → List α
  | [] => [x]
  | y :: ys => if le x y then x :: y :: ys else y :: insert_le le x ys

/-- Insertion sort relative to a boolean "less or equal" test. Python's
`sorted` agrees with it everywhere the application sorts: both are stable,
and the sorted collections here have pairwise-distinct keys. -/
def sort_le {α : Type} (le : α → α → Bool) : List α → List α
  | [] => []
  | x :: xs => insert_le le x (sort_le le xs)

/-- Lexicographic order on model strings, as Python compares `str`. -/
def str_le (a b : Str) : Bool := decide (a ≤ b)

/-- Python `sorted` on a list of strings. -/
def sort_strs : List Str → List Str := sort_le str_le

/-- Python dict assignment `d[k] = v`: update the existing key in place,
or append a fresh binding (dicts preserve insertion order). -/
def dict_set (d : List (Str × Str)) (k v : Str) : List (Str × Str) :=
  if d.any (fun p => decide (p.1 = k)) then
    d.map (fun p => if p.1 = k then (k, v) else p)
  else d ++ [(k, v)]

/-- Python `d.get(k)`: the value at the first (hence only) binding of the
key, if present. -/
def dict_get (d : List (Str × Str)) (k : Str) : Option Str :=
  match d with
  | [] => none
  | p :: ds => if p.1 = k then some p.2 else dict_get ds k

/-- One entry of an `os.listdir` result, together with whether
`os.path.isfile` holds for it (`false` covers subdirectories and other
non-regular entries). A directory that may be absent is an
`Option (List DirEntry)`, `none` meaning `os.path.isdir` is false. -/
structure DirEntry where
  name : Str
  isFile : Bool
deriving DecidableEq

/-- The wine record (`class Vine`) of `app.py`. Text columns that may be
`NULL` are modelled by the empty string, matching the source's uniform
`(value or "")` / truthiness handling. -/
structure Vine where
  id : Nat
  name : Str
  color : Str
  sparkling : Str
  country : Str
  region : Str
  grape : Str
  sugar : Str
  pdf_file : Str
  price : Str
deriving DecidableEq

/-- A decoded Python JSON value, as far as the grape-variety handling
inspects it: a string, a list, or anything else (`dict`, number, bool,
`null`), which the source treats uniformly. -/
inductive PyVal where
  | pstr : Str → PyVal
  | plist : List PyVal → PyVal
  | other : PyVal

/-- Python `str()` applied to a decoded JSON list element. On strings it
is the identity — the only case any record exercises in the claims; the
rendering of non-string values is modelled as a fixed placeholder. -/
def py_to_string : PyVal → Str
  | .pstr s => s
  | _ => str "<value>"

/-- The allowed bottle-image extensions of `_build_bottle_lookup` and the
`/vinery/bottles/` route. -/
def bottle_allowed_ext : List Str :=
  [str ".png", str ".jpg", str ".jpeg", str ".webp", str ".gif", str ".svg"]

/-- `_build_bottle_lookup` of `app.py`: fold over the bottle directory
listing (all entries, with no regular-file check), keeping entries whose
lowercased extension is allowed, and map each lowercased stem to the
entry's filename; later entries overwrite earlier ones (last seen wins).
An absent directory yields the empty mapping. `bottle_step` is the loop
body, named so the fold can be reasoned about. -/
def bottle_step (lookup : List (Str × Str)) (entry : DirEntry) : List (Str × Str) :=
  let be := splitext entry.name
  if bottle_allowed_ext.contains (lower be.2) then
    dict_set lookup (lower be.1) entry.name
  else lookup

def build_bottle_lookup (bottles_dir : Option (List DirEntry)) : List (Str × Str) :=
  match bottles_dir with
  | none => []
  | some listing => listing.foldl bottle_step []

/-- The filenames an allowed-extension scan of the bottle directory sees
for a given stem, in listing order, ignoring the regular-file check (the
candidate stream of `_build_bottle_lookup` for one key). -/
def lookup_candidates (listing : List DirEntry) (base : Str) : List Str :=
  listing.filterMap (fun e =>
    if bottle_allowed_ext.contains (lower (splitext e.name).2)
        && decide (lower (splitext e.name).1 = base) then
      some e.name
    else none)

/-- `url_for("bottle_image", filename=f)` as the source's templates
receive it: the bottle route path for the filename. -/
def url_for_bottle_image (filename : Str) : Str :=
  str "/vinery/bottles/" ++ filename

/-- The `image_url` computation of the `catalog` route (`/winery/`): if
the record's `pdf_file` is non-empty (Python truthiness) and the bottle
lookup has a binding for its lowercased stem, the bottle URL of the bound
filename; otherwise `None`. -/
def catalog_image_url (bottle_lookup : List (Str × Str)) (v : Vine) : Option Str :=
  if v.pdf_file = [] then none
  else
    match dict_get bottle_lookup (lower (splitext v.pdf_file).1) with
    | some bottle_filename => some (url_for_bottle_image bottle_filename)
    | none => none

/-- The grape decoding of the `catalog` route: empty field decodes to the
empty list; a successful `json.loads` is passed through; a decode failure
degrades to a one-element list holding the raw value. The `loads`
parameter stands for `json.loads`, `none` meaning it raises. -/
def catalog_grapes (loads : Str → Option PyVal) (grape : Str) : PyVal :=
  if grape = [] then .plist []
  else
    match loads grape with
    | some v => v
    | none => .plist [.pstr grape]

/-- The grape decoding of `scan_resources`: a decoded list keeps its
elements' stripped string forms, dropping blanks; a decoded non-blank
string becomes a singleton; other decoded values give no grapes; a decode
failure degrades to a one-element list holding the stripped raw value. -/
def scan_grape_values (loads : Str → Option PyVal) (grape : Str) : List Str :=
  if grape = [] then []
  else
    match loads grape with
    | some (.plist xs) =>
      (xs.map (fun g => strip (py_to_string g))).filter (fun s => decide (s ≠ []))
    | some (.pstr s) => if strip s = [] then [] else [strip s]
    | some .other => []
    | none => [strip grape]

/-- The `pdf_fs_files` set of `scan_resources`: regular files of the
description (`pdfs`) directory whose lowercased name ends in `.pdf`;
empty when the directory is absent. -/
def pdf_fs_files (pdfs_dir : Option (List DirEntry)) : List Str :=
  match pdfs_dir with
  | none => []
  | some listing =>
    (listing.filter (fun e => e.isFile && (str ".pdf").isSuffixOf (lower e.name))).map (·.name)

/-- All regular files found in a directory, whatever their extension (the
claim-side notion of "files found in the description directory"). -/
def dir_files (d : Option (List DirEntry)) : List Str :=
  match d with
  | none => []
  | some listing => (listing.filter (·.isFile)).map (·.name)

/-- `missing_pdf_on_disk` of `scan_resources`: records whose stripped
`pdf_file` is non-blank, paired with that name, whenever the description
directory exists and the name is not among its `.pdf` regular files. -/
def scan_missing_pdf_on_disk (vines : List Vine) (pdfs_dir : Option (List DirEntry)) :
    List (Vine × Str) :=
  vines.filterMap (fun v =>
    let pdf_name := strip v.pdf_file
    if pdf_name = [] then none
    else if pdfs_dir.isSome && !((pdf_fs_files pdfs_dir).contains pdf_name) then
      some (v, pdf_name)
    else none)

/-- `missing_pdf_field` of `scan_resources`: records whose stripped
`pdf_file` is blank. -/
def scan_missing_pdf_field (vines : List Vine) : List Vine :=
  vines.filter (fun v => decide (strip v.pdf_file = []))

/-- `pdf_names_in_db` of `scan_resources`: the set of stripped non-blank
`pdf_file` references. -/
def pdf_names_in_db (vines : List Vine) : List Str :=
  dedup ((vines.map (fun v => strip v.pdf_file)).filter (fun n => decide (n ≠ [])))

/-- `unused_pdf_files` of `scan_resources`: `.pdf` files on disk not
referenced by any record, sorted; empty when the directory is absent. -/
def unused_pdf_files (vines : List Vine) (pdfs_dir : Option (List DirEntry)) : List Str :=
  match pdfs_dir with
  | none => []
  | some _ =>
    sort_strs ((dedup (pdf_fs_files pdfs_dir)).filter
      (fun f => !((pdf_names_in_db vines).contains f)))

/-- The claim-side set `referencedDescriptionFiles-on-disk`: record
references that are present among the reporter's on-disk `.pdf` files. -/
def referenced_pdf_on_disk (vines : List Vine) (pdfs_dir : Option (List DirEntry)) : List Str :=
  (pdf_names_in_db vines).filter (fun n => (pdf_fs_files pdfs_dir).contains n)

/-- `missing_bottle_images` of `scan_resources`: records with a non-blank
reference whose lowercased stem has no binding in the bottle lookup,
paired with that stem. -/
def scan_missing_bottle_images (vines : List Vine) (bottles_dir : Option (List DirEntry)) :
    List (Vine × Str) :=
  let lookup := build_bottle_lookup bottles_dir
  vines.filterMap (fun v =>
    let pdf_name := strip v.pdf_file
    if pdf_name = [] then none
    else
      let base := lower (splitext pdf_name).1
      match dict_get lookup base with
      | some _ => none
      | none => some (v, base))

/-- `used_bottle_files` of `scan_resources`: the set of bottle filenames
some record's stem resolves to. -/
def scan_used_bottle_files (vines : List Vine) (bottles_dir : Option (List DirEntry)) :
    List Str :=
  let lookup := build_bottle_lookup bottles_dir
  dedup (vines.filterMap (fun v =>
    let pdf_name := strip v.pdf_file
    if pdf_name = [] then none
    else dict_get lookup (lower (splitext pdf_name).1)))

/-- `bottle_files` of `scan_resources`: the value set of the bottle
lookup when the bottle directory exists, else empty. -/
def scan_bottle_files (bottles_dir : Option (List DirEntry)) : List Str :=
  match bottles_dir with
  | none => []
  | some _ => dedup ((build_bottle_lookup bottles_dir).map (·.2))

/-- `unused_bottle_files` of `scan_resources`: lookup values no record
uses, sorted; empty when the directory is absent. -/
def scan_unused_bottle_files (vines : List Vine) (bottles_dir : Option (List DirEntry)) :
    List Str :=
  match bottles_dir with
  | none => []
  | some _ =>
    sort_strs ((scan_bottle_files bottles_dir).filter
      (fun f => !((scan_used_bottle_files vines bottles_dir).contains f)))

/-- `bottle_base_registry` of `scan_resources`, viewed at one key: the
regular files of the bottle directory with an allowed extension and the
given lowercased stem, in listing order. -/
def bottle_base_registry (bottles_dir : Option (List DirEntry)) (base : Str) : List Str :=
  match bottles_dir with
  | none => []
  | some listing =>
    listing.filterMap (fun e =>
      if e.isFile && bottle_allowed_ext.contains (lower (splitext e.name).2)
          && decide (lower (splitext e.name).1 = base) then
        some e.name
      else none)

/-- The duplicate group `scan_resources` reports for one stem: the sorted
registry entries when there are at least two, nothing otherwise. -/
def duplicate_bottle_group (bottles_dir : Option (List DirEntry)) (base : Str) :
    Option (List Str) :=
  let entries := bottle_base_registry bottles_dir base
  if entries.length > 1 then some (sort_strs entries) else none

/-- `duplicate_bottle_entries` of `scan_resources`: one `(base, files)`
group per stem with at least two allowed-extension regular files, files
sorted within the group, groups sorted by stem. -/
def scan_duplicate_bottle_entries (bottles_dir : Option (List DirEntry)) :
    List (Str × List Str) :=
  match bottles_dir with
  | none => []
  | some listing =>
    let bases := dedup (listing.filterMap (fun e =>
      if e.isFile && bottle_allowed_ext.contains (lower (splitext e.name).2) then
        some (lower (splitext e.name).1)
      else none))
    sort_le (fun a b => str_le a.1 b.1)
      (bases.filterMap (fun b =>
        (duplicate_bottle_group bottles_dir b).map (fun fs => (b, fs))))

/-- Replace a blank value by a default label, as the counters of
`scan_resources` do with `vine.color or "не указан"` and kin. -/
def or_default (s d : Str) : Str := if s = [] then d else s

/-- `Counter(keys).items()` in Python insertion order: each distinct key
in first-occurrence order with its multiplicity. -/
def counter_items (keys : List Str) : List (Str × Nat) :=
  (dedup keys).map (fun k => (k, keys.count k))

/-- The comparison `key=lambda item: (-item[1], item[0])` used by
`scan_resources` for its frequency tables: descending count, then
ascending label. -/
def stat_le (a b : Str × Nat) : Bool :=
  decide (b.2 < a.2) || (decide (a.2 = b.2) && decide (a.1 ≤ b.1))

/-- `sorted(counter.items(), key=lambda item: (-item[1], item[0]))`. -/
def sort_stats (items : List (Str × Nat)) : List (Str × Nat) :=
  sort_le stat_le items

/-- The color keys `scan_resources` counts. -/
def color_keys (vines : List Vine) : List Str :=
  vines.map (fun v => or_default v.color (str "не указан"))

/-- `color_stats` of `scan_resources`. -/
def color_stats (vines : List Vine) : List (Str × Nat) :=
  sort_stats (counter_items (color_keys vines))

/-- The sugar keys `scan_resources` counts. -/
def sugar_keys (vines : List Vine) : List Str :=
  vines.map (fun v => or_default v.sugar (str "не указано"))

/-- `sugar_stats` of `scan_resources`. -/
def sugar_stats (vines : List Vine) : List (Str × Nat) :=
  sort_stats (counter_items (sugar_keys vines))

/-- The sparkling keys `scan_resources` counts:
`(vine.sparkling or "no").lower()`. -/
def sparkling_keys (vines : List Vine) : List Str :=
  vines.map (fun v => lower (or_default v.sparkling (str "no")))

/-- `sparkling_stats` of `scan_resources`: a fixed-shape mapping with the
`yes` count, the `no` count, and the summed count of every other state,
in that insertion order — not a sorted frequency table. -/
def sparkling_stats (vines : List Vine) : List (Str × Nat) :=
  let keys := sparkling_keys vines
  [(str "yes", keys.count (str "yes")),
   (str "no", keys.count (str "no")),
   (str "other", (keys.filter (fun k => decide (k ≠ str "yes") && decide (k ≠ str "no"))).length)]

/-- The country keys `scan_resources` counts. -/
def country_keys (vines : List Vine) : List Str :=
  vines.map (fun v => or_default v.country (str "не указана"))

/-- `country_stats` of `scan_resources`. -/
def country_stats (vines : List Vine) : List (Str × Nat) :=
  sort_stats (counter_items (country_keys vines))

/-- The grape keys `scan_resources` counts: every decoded grape value of
every record. -/
def grape_keys (loads : Str → Option PyVal) (vines : List Vine) : List Str :=
  (vines.map (fun v => scan_grape_values loads v.grape)).flatten

/-- `grape_stats` of `scan_resources`. -/
def grape_stats (loads : Str → Option PyVal) (vines : List Vine) : List (Str × Nat) :=
  sort_stats (counter_items (grape_keys loads vines))

/-- `vines_missing_grape` of `scan_resources`: records whose decoded
grape list is empty. -/
def vines_missing_grape (loads : Str → Option PyVal) (vines : List Vine) : List Vine :=
  vines.filter (fun v => decide (scan_grape_values loads v.grape = []))

/-- `vines_missing_price` of `scan_resources`: records with a blank
price. -/
def vines_missing_price (vines : List Vine) : List Vine :=
  vines.filter (fun v => decide (strip v.price = []))

/-- The report `/scan` renders, restricted to the record- and
filesystem-derived sections the specification's claims concern (the
remaining template context — summary counts, metric cards, duplicate
description groups — is presentation over these same values). -/
structure ScanReport where
  db_error : Option Str
  total_vines : Nat
  missing_pdf_field : List Vine
  missing_pdf_on_disk : List (Vine × Str)
  missing_bottle_images : List (Vine × Str)
  unused_pdf_files : List Str
  unused_bottle_files : List Str
  duplicate_bottle_entries : List (Str × List Str)
  color_stats : List (Str × Nat)
  sugar_stats : List (Str × Nat)
  sparkling_stats : List (Str × Nat)
  country_stats : List (Str × Nat)
  grape_stats : List (Str × Nat)
  vines_missing_grape : List Vine
  vines_missing_price : List Vine
deriving DecidableEq

/-- The `/scan` route (`scan_resources`): querying the store either
yields the name-ordered record list or raises; a raise is caught, its
message kept as `db_error`, and the whole report is computed over an
empty record list. -/
def scan_resources (loads : Str → Option PyVal) (db : Except Str (List Vine))
    (pdfs_dir bottles_dir : Option (List DirEntry)) : ScanReport :=
  let vines := match db with | .ok vs => vs | .error _ => []
  { db_error := match db with | .ok _ => none | .error e => some e
    total_vines := vines.length
    missing_pdf_field := scan_missing_pdf_field vines
    missing_pdf_on_disk := scan_missing_pdf_on_disk vines pdfs_dir
    missing_bottle_images := scan_missing_bottle_images vines bottles_dir
    unused_pdf_files := unused_pdf_files vines pdfs_dir
    unused_bottle_files := scan_unused_bottle_files vines bottles_dir
    duplicate_bottle_entries := scan_duplicate_bottle_entries bottles_dir
    color_stats := color_stats vines
    sugar_stats := sugar_stats vines
    sparkling_stats := sparkling_stats vines
    country_stats := country_stats vines
    grape_stats := grape_stats loads vines
    vines_missing_grape := vines_missing_grape loads vines
    vines_missing_price := vines_missing_price vines }

/-- The `fs_files` set of `status_json`: every `os.listdir` entry of the
description directory (regular file or not), empty when absent. -/
def status_fs_files (pdfs_dir : Option (List DirEntry)) : List Str :=
  match pdfs_dir with
  | none => []
  | some listing => dedup (listing.map (·.name))

/-- The `db_files` set of `status_json`: non-empty `pdf_file` references
(untrimmed, by Python truthiness). -/
def status_db_files (vines : List Vine) : List Str :=
  dedup ((vines.filter (fun v => decide (v.pdf_file ≠ []))).map (·.pdf_file))

/-- `details["pdfs_missing"]` of `status_json`:
`sorted(db_files - fs_files)`. -/
def status_pdfs_missing (vines : List Vine) (pdfs_dir : Option (List DirEntry)) : List Str :=
  sort_strs ((status_db_files vines).filter
    (fun f => !((status_fs_files pdfs_dir).contains f)))

/-- `details["pdfs_extra"]` of `status_json`:
`sorted(fs_files - db_files)`. -/
def status_pdfs_extra (vines : List Vine) (pdfs_dir : Option (List DirEntry)) : List Str :=
  sort_strs ((status_fs_files pdfs_dir).filter
    (fun f => !((status_db_files vines).contains f)))

/-- The `/status.json` payload, restricted to the fields the claims
concern (the remaining `details` entries are further aggregate counts
over the same record list). `details` fields are `none` exactly when the
store query raised, leaving `details` empty. -/
structure StatusPayload where
  env : Str
  db_mode : Str
  db_connected : Bool
  vines_total : Option Nat
  pdfs_missing : Option (List Str)
  pdfs_extra : Option (List Str)
deriving DecidableEq

/-- The `/status.json` route (`status_json`): a store failure anywhere in
the guarded block is caught and reported as `db_connected=false` with
empty details; the payload is returned either way. -/
def status_json (vercel : Bool) (db : Except Str (List Vine))
    (pdfs_dir : Option (List DirEntry)) : StatusPayload :=
  let env := if vercel then str "vercel" else str "local"
  let db_mode := if vercel then str "ro" else str "rw"
  match db with
  | .error _ =>
    { env := env, db_mode := db_mode, db_connected := false,
      vines_total := none, pdfs_missing := none, pdfs_extra := none }
  | .ok vines =>
    { env := env, db_mode := db_mode, db_connected := true,
      vines_total := some vines.length,
      pdfs_missing := some (status_pdfs_missing vines pdfs_dir),
      pdfs_extra := some (status_pdfs_extra vines pdfs_dir) }

/-- An asset route's outcome: a 404, or a named file streamed out of a
named directory. -/
inductive HttpResponse where
  | notFound
  | file (dir : Str) (name : Str)
deriving DecidableEq

/-- Modelled from Flask/Werkzeug `send_from_directory` over the flat
directory listings of this embedding: stream the entry whose name matches
the request exactly and which is a regular file; anything else — absent
directory, unknown name, or a non-regular entry — is Not Found. -/
def send_from_directory (d : Option (List DirEntry)) (dirname : Str) (filename : Str) :
    HttpResponse :=
  match d with
  | none => .notFound
  | some listing =>
    if listing.any (fun e => e.isFile && decide (e.name = filename)) then
      .file dirname filename
    else .notFound

/-- The `/vinery/pdfs/<filename>` route (`pdfs`): the request name is
handed to `send_from_directory` unmodified. -/
def pdfs_route (pdfs_dir : Option (List DirEntry)) (filename : Str) : HttpResponse :=
  send_from_directory pdfs_dir (str "pdfs") filename

/-- The `/vinery/bottles/<path:filename>` route (`bottle_image`): 404
unless the request's lowercased extension is allowed and the request is a
value of the freshly built bottle lookup; otherwise the name is handed to
`send_from_directory` unmodified. -/
def bottle_image (bottles_dir : Option (List DirEntry)) (filename : Str) : HttpResponse :=
  let lookup := build_bottle_lookup bottles_dir
  let valid_files := lookup.map (·.2)
  let ext := (splitext filename).2
  if !(bottle_allowed_ext.contains (lower ext)) then .notFound
  else if !(valid_files.contains filename) then .notFound
  else send_from_directory bottles_dir (str "bottles") filename

/-- The claim-side sortedness predicate for the reporter's frequency
tables: descending count, ties by ascending label. -/
def sorted_by_count_then_label (items : List (Str × Nat)) : Prop :=
  List.Pairwise (fun a b => b.2 < a.2 ∨ (a.2 = b.2 ∧ a.1 ≤ b.1)) items

instance (items : List (Str × Nat)) : Decidable (sorted_by_count_then_label items) := by
  unfold sorted_by_count_then_label
  infer_instance

/-- A concrete well-formed record used by scenario statements: the seed
record of `upload_test_vines` referencing `kab_sov.pdf`. -/
def kab_vine : Vine :=
  { id := 1
    name := str "[ТЕСТОВОЕ] Каберне Совиньон"
    color := str "red"
    sparkling := str "no"
    country := str "russia"
    region := str "Краснодар"
    grape := str "[\x22Cabernet Sauvignon\x22]"
    sugar := str "dry"
    pdf_file := str "kab_sov.pdf"
    price := [] }

/-- A record whose description reference is a single space: non-empty for
Python truthiness, blank after stripping. -/
def blank_ref_vine : Vine :=
  { kab_vine with id := 2, pdf_file := [' '] }

/-- A record referencing a name without the `.pdf` suffix. -/
def txt_ref_vine : Vine :=
  { kab_vine with id := 3, pdf_file := str "notes.txt" }

/-! ### Library lemmas about the model's list, dictionary and sorting
primitives. -/

theorem mem_dedup {α : Type} [DecidableEq α] (a : α) (l : List α) :
    a ∈ dedup l ↔ a ∈ l := by
  induction l with
  | nil => simp [dedup]
  | cons x xs ih =>
    by_cases h : a = x
    · subst h; simp [dedup]
    · simp [dedup, List.mem_filter, ih, h]

theorem mem_insert_le {α : Type} (le : α → α → Bool) (x a : α) (l : List α) :
    a ∈ insert_le le x l ↔ a = x ∨ a ∈ l := by
  induction l with
  | nil => simp [insert_le]
  | cons y ys ih =>
    by_cases h : le x y
    · simp [insert_le, h]
    · simp [insert_le, h, ih]
      tauto

theorem mem_sort_le {α : Type} (le : α → α → Bool) (a : α) (l : List α) :
    a ∈ sort_le le l ↔ a ∈ l := by
  induction l with
  | nil => simp [sort_le]
  | cons x xs ih => simp [sort_le, mem_insert_le, ih]

theorem pairwise_insert_le {α : Type} (le : α → α → Bool)
    (htrans : ∀ a b c, le a b = true → le b c = true → le a c = true)
    (htot : ∀ a b, (le a b || le b a) = true) (x : α) (l : List α)
    (h : List.Pairwise (fun a b => le a b = true) l) :
    List.Pairwise (fun a b => le a b = true) (insert_le le x l) := by
  induction l with
  | nil => simp [insert_le]
  | cons y ys ih =>
    rcases List.pairwise_cons.mp h with ⟨hy, hys⟩
    by_cases hxy : le x y = true
    · rw [insert_le, if_pos hxy]
      refine List.pairwise_cons.mpr ⟨fun z hz => ?_, h⟩
      rcases List.mem_cons.mp hz with rfl | hz
      · exact hxy
      · exact htrans x y z hxy (hy z hz)
    · have hyx : le y x = true := by
        have := htot x y
        rw [Bool.or_eq_true] at this
        rcases this with h1 | h1
        · exact absurd h1 hxy
        · exact h1
      rw [insert_le, if_neg hxy]
      refine List.pairwise_cons.mpr ⟨fun z hz => ?_, ih hys⟩
      rcases (mem_insert_le le x z ys).mp hz with rfl | hz
      · exact hyx
      · exact hy z hz

theorem pairwise_sort_le {α : Type} (le : α → α → Bool)
    (htrans : ∀ a b c, le a b = true → le b c = true → le a c = true)
    (htot : ∀ a b, (le a b || le b a) = true) (l : List α) :
    List.Pairwise (fun a b => le a b = true) (sort_le le l) := by
  induction l with
  | nil => simp [sort_le]
  | cons x xs ih => exact pairwise_insert_le le htrans htot x _ ih

theorem stat_le_iff (a b : Str × Nat) :
    stat_le a b = true ↔ (b.2 < a.2 ∨ (a.2 = b.2 ∧ a.1 ≤ b.1)) := by
  simp [stat_le, Bool.or_eq_true, Bool.and_eq_true, decide_eq_true_eq]

theorem stat_le_trans (a b c : Str × Nat)
    (hab : stat_le a b = true) (hbc : stat_le b c = true) : stat_le a c = true := by
  rw [stat_le_iff] at hab hbc ⊢
  rcases hab with h1 | ⟨h1, h1l⟩ <;> rcases hbc with h2 | ⟨h2, h2l⟩
  · left; omega
  · left; omega
  · left; omega
  · right; exact ⟨h1.trans h2, le_trans h1l h2l⟩

theorem stat_le_total (a b : Str × Nat) : (stat_le a b || stat_le b a) = true := by
  rw [Bool.or_eq_true, stat_le_iff, stat_le_iff]
  rcases Nat.lt_trichotomy a.2 b.2 with h | h | h
  · right; left; exact h
  · rcases le_total a.1 b.1 with hl | hl
    · left; right; exact ⟨h, hl⟩
    · right; right; exact ⟨h.symm, hl⟩
  · left; left; exact h

theorem str_le_trans (a b c : Str)
    (hab : str_le a b = true) (hbc : str_le b c = true) : str_le a c = true := by
  rw [str_le, decide_eq_true_eq] at hab hbc ⊢
  exact le_trans hab hbc

theorem str_le_total (a b : Str) : (str_le a b || str_le b a) = true := by
  rw [Bool.or_eq_true, str_le, str_le, decide_eq_true_eq, decide_eq_true_eq]
  exact le_total a b

theorem mem_sort_strs (a : Str) (l : List Str) : a ∈ sort_strs l ↔ a ∈ l :=
  mem_sort_le str_le a l

theorem dict_get_map_update (d : List (Str × Str)) (k v k2 : Str) :
    dict_get (d.map (fun p => if p.1 = k then (k, v) else p)) k2 =
      if k2 = k then (dict_get d k).map (fun _ => v) else dict_get d k2 := by
  induction d with
  | nil => simp [dict_get]
  | cons p ds ih =>
    by_cases hp : p.1 = k
    · by_cases hk : k2 = k
      · simp [dict_get, hp, hk]
      · have hne : ¬ k = k2 := fun h => hk h.symm
        have hne2 : ¬ p.1 = k2 := fun h => hk (hp.symm.trans h).symm
        simp [dict_get, hp, hne, hk, ih, hne2]
    · by_cases hk2 : p.1 = k2
      · have hne : ¬ k2 = k := fun h => hp (hk2.trans h)
        simp [dict_get, hp, hk2, hne]
      · by_cases hk : k2 = k
        · subst hk
          simp [dict_get, hp, hk2, ih]
        · simp [dict_get, hp, hk2, hk, ih]

theorem dict_get_append_one (d : List (Str × Str)) (k v k2 : Str) :
    dict_get (d ++ [(k, v)]) k2 =
      match dict_get d k2 with
      | some w => some w
      | none => if k2 = k then some v else none := by
  induction d with
  | nil =>
    by_cases hk : k2 = k
    · simp [dict_get, hk]
    · have hne : ¬ k = k2 := fun h => hk h.symm
      simp [dict_get, hk, hne]
  | cons p ds ih =>
    by_cases hp : p.1 = k2
    · simp [dict_get, hp]
    · simp [dict_get, hp, ih]

theorem dict_get_isSome_iff (d : List (Str × Str)) (k : Str) :
    (dict_get d k).isSome = true ↔ d.any (fun p => decide (p.1 = k)) = true := by
  induction d with
  | nil => simp [dict_get]
  | cons p ds ih =>
    by_cases hp : p.1 = k
    · simp [dict_get, hp]
    · simp [dict_get, hp, ih]

theorem dict_get_set (d : List (Str × Str)) (k v k2 : Str) :
    dict_get (dict_set d k v) k2 = if k2 = k then some v else dict_get d k2 := by
  unfold dict_set
  by_cases h : d.any (fun p => decide (p.1 = k)) = true
  · rw [if_pos h, dict_get_map_update]
    by_cases hk : k2 = k
    · rw [if_pos hk, if_pos hk]
      have hs : (dict_get d k).isSome = true := (dict_get_isSome_iff d k).mpr h
      cases hd : dict_get d k with
      | none => rw [hd] at hs; simp at hs
      | some w => simp [hd]
    · rw [if_neg hk, if_neg hk]
  · rw [if_neg h, dict_get_append_one]
    cases hd : dict_get d k2 with
    | some w =>
      by_cases hk : k2 = k
      · exfalso
        apply h
        apply (dict_get_isSome_iff d k).mp
        rw [← hk, hd]
        rfl
      · simp [hk, hd]
    | none => simp [hd]

theorem mem_dict_set (d : List (Str × Str)) (k v : Str) (p : Str × Str)
    (h : p ∈ dict_set d k v) : p = (k, v) ∨ p ∈ d := by
  unfold dict_set at h
  by_cases ha : d.any (fun p => decide (p.1 = k)) = true
  · rw [if_pos ha] at h
    rcases List.mem_map.mp h with ⟨q, hq, hpq⟩
    by_cases hqk : q.1 = k
    · left; rw [← hpq, if_pos hqk]
    · right; rw [← hpq, if_neg hqk]; exact hq
  · rw [if_neg ha, List.mem_append] at h
    rcases h with h | h
    · right; exact h
    · left; simpa using h

/-! ### Structure of the bottle lookup fold. -/

theorem dict_get_foldl_bottle_step (l : List DirEntry) (d : List (Str × Str)) (base : Str) :
    dict_get (l.foldl bottle_step d) base =
      match (lookup_candidates l base).getLast? with
      | some v => some v
      | none => dict_get d base := by
  induction l generalizing d with
  | nil => simp [lookup_candidates]
  | cons e rest ih =>
    rw [List.foldl_cons, ih]
    by_cases hext : bottle_allowed_ext.contains (lower (splitext e.name).2) = true
    · by_cases hbase : lower (splitext e.name).1 = base
      · have hcond : (bottle_allowed_ext.contains (lower (splitext e.name).2)
            && decide (lower (splitext e.name).1 = base)) = true := by
          rw [Bool.and_eq_true]
          exact ⟨hext, decide_eq_true hbase⟩
        have hstep : dict_get (bottle_step d e) base = some e.name := by
          rw [bottle_step]
          simp only [if_pos hext]
          rw [dict_get_set, if_pos hbase.symm]
        have hcands : lookup_candidates (e :: rest) base
            = e.name :: lookup_candidates rest base := by
          rw [lookup_candidates, List.filterMap_cons, if_pos hcond]
          rfl
        rw [hcands, hstep, List.getLast?_cons]
        cases hlast : (lookup_candidates rest base).getLast? with
        | none => simp
        | some w => simp
      · have hcond : (bottle_allowed_ext.contains (lower (splitext e.name).2)
            && decide (lower (splitext e.name).1 = base)) = false := by
          rw [Bool.and_eq_false_iff]
          right
          exact decide_eq_false hbase
        have hstep : dict_get (bottle_step d e) base = dict_get d base := by
          rw [bottle_step]
          simp only [if_pos hext]
          rw [dict_get_set, if_neg (fun h => hbase h.symm)]
        have hcands : lookup_candidates (e :: rest) base = lookup_candidates rest base := by
          rw [lookup_candidates, List.filterMap_cons, hcond]
          rfl
        rw [hcands, hstep]
    · have hcond : (bottle_allowed_ext.contains (lower (splitext e.name).2)
          && decide (lower (splitext e.name).1 = base)) = false := by
        rw [Bool.and_eq_false_iff]
        left
        exact Bool.not_eq_true _ ▸ (by simpa using hext)
      have hstep : bottle_step d e = d := by
        rw [bottle_step]
        simp only [if_neg hext]
      have hcands : lookup_candidates (e :: rest) base = lookup_candidates rest base := by
        rw [lookup_candidates, List.filterMap_cons, hcond]
        rfl
      rw [hcands, hstep]

theorem dict_get_build_bottle_lookup (listing : List DirEntry) (base : Str) :
    dict_get (build_bottle_lookup (some listing)) base
      = (lookup_candidates listing base).getLast? := by
  rw [build_bottle_lookup, dict_get_foldl_bottle_step]
  cases h : (lookup_candidates listing base).getLast? with
  | none => rfl
  | some v => rfl

theorem registry_eq_candidates (listing : List DirEntry) (base : Str)
    (hf : ∀ e ∈ listing, e.isFile = true) :
    bottle_base_registry (some listing) base = lookup_candidates listing base := by
  rw [bottle_base_registry, lookup_candidates]
  apply List.filterMap_congr
  intro e he
  rw [hf e he]
  simp

theorem foldl_lookup_values (G : Str → Prop) (l : List DirEntry) (d : List (Str × Str))
    (hd : ∀ p ∈ d, G p.2)
    (hl : ∀ e ∈ l, bottle_allowed_ext.contains (lower (splitext e.name).2) = true → G e.name) :
    ∀ p ∈ l.foldl bottle_step d, G p.2 := by
  induction l generalizing d with
  | nil => exact hd
  | cons e rest ih =>
    rw [List.foldl_cons]
    apply ih
    · intro p hp
      rw [bottle_step] at hp
      by_cases hext : bottle_allowed_ext.contains (lower (splitext e.name).2) = true
      · simp only [if_pos hext] at hp
        rcases mem_dict_set _ _ _ p hp with rfl | hp
        · exact hl e (List.mem_cons_self e rest) hext
        · exact hd p hp
      · simp only [if_neg hext] at hp
        exact hd p hp
    · intro e2 he2 hx
      exact hl e2 (List.mem_cons_of_mem e he2) hx

theorem mem_values_build_bottle_lookup (listing : List DirEntry) (v : Str)
    (hv : v ∈ (build_bottle_lookup (some listing)).map (·.2)) :
    (∃ e ∈ listing, e.name = v)
      ∧ bottle_allowed_ext.contains (lower (splitext v).2) = true := by
  rcases List.mem_map.mp hv with ⟨p, hp, hpv⟩
  have := foldl_lookup_values
    (fun w => (∃ e ∈ listing, e.name = w)
      ∧ bottle_allowed_ext.contains (lower (splitext w).2) = true)
    listing [] (by simp)
    (fun e he hext => ⟨⟨e, he, rfl⟩, hext⟩) p (by rwa [build_bottle_lookup] at hp)
  rwa [hpv] at this

/-! ### Shared characterizations of the reporter's and the routes'
behaviour, used by the claim theorems. -/

theorem contains_iff_mem (l : List Str) (a : Str) : l.contains a = true ↔ a ∈ l :=
  List.elem_iff

theorem mem_scan_missing_pdf_on_disk (vines : List Vine)
    (pdfs_dir : Option (List DirEntry)) (v : Vine) (n : Str) :
    (v, n) ∈ scan_missing_pdf_on_disk vines pdfs_dir ↔
      v ∈ vines ∧ n = strip v.pdf_file ∧ strip v.pdf_file ≠ []
        ∧ pdfs_dir.isSome = true ∧ strip v.pdf_file ∉ pdf_fs_files pdfs_dir := by
  rw [scan_missing_pdf_on_disk, List.mem_filterMap]
  constructor
  · rintro ⟨u, hu, hfu⟩
    simp only at hfu
    by_cases h1 : strip u.pdf_file = []
    · rw [if_pos h1] at hfu
      exact absurd hfu (by simp)
    · rw [if_neg h1] at hfu
      by_cases h2 : (pdfs_dir.isSome && !((pdf_fs_files pdfs_dir).contains (strip u.pdf_file)))
          = true
      · rw [if_pos h2] at hfu
        have huv : u = v ∧ strip u.pdf_file = n := by
          have := Option.some.inj hfu
          exact ⟨congrArg Prod.fst this, congrArg Prod.snd this⟩
        rcases huv with ⟨rfl, hn⟩
        rw [Bool.and_eq_true] at h2
        refine ⟨hu, hn.symm, h1, h2.1, ?_⟩
        intro hmem
        have := (contains_iff_mem _ _).mpr hmem
        rw [this] at h2
        simp at h2
      · rw [if_neg h2] at hfu
        exact absurd hfu (by simp)
  · rintro ⟨hv, rfl, h1, hsome, hnm⟩
    refine ⟨v, hv, ?_⟩
    simp only
    rw [if_neg h1, if_pos ?_]
    rw [Bool.and_eq_true]
    refine ⟨hsome, ?_⟩
    cases hc : (pdf_fs_files pdfs_dir).contains (strip v.pdf_file) with
    | false => rfl
    | true => exact absurd ((contains_iff_mem _ _).mp hc) hnm

theorem scan_missing_pdf_on_disk_none (vines : List Vine) :
    scan_missing_pdf_on_disk vines none = [] := by
  rw [scan_missing_pdf_on_disk]
  rw [List.filterMap_eq_nil_iff]
  intro v hv
  simp only
  by_cases h1 : strip v.pdf_file = []
  · rw [if_pos h1]
  · rw [if_neg h1, if_neg (by simp)]

theorem bottle_image_notFound_of_not_mem (bottles_dir : Option (List DirEntry))
    (filename : Str)
    (hnm : filename ∉ (build_bottle_lookup bottles_dir).map (·.2)) :
    bottle_image bottles_dir filename = .notFound := by
  rw [bottle_image]
  by_cases hext : bottle_allowed_ext.contains (lower (splitext filename).2) = true
  · have hcont : ((build_bottle_lookup bottles_dir).map (·.2)).contains filename = false := by
      cases hc : ((build_bottle_lookup bottles_dir).map (·.2)).contains filename with
      | false => rfl
      | true => exact absurd ((contains_iff_mem _ _).mp hc) hnm
    simp only [hext, hcont]
    rfl
  · have hext2 : bottle_allowed_ext.contains (lower (splitext filename).2) = false :=
      Bool.not_eq_true _ ▸ (by simpa using hext)
    simp only [hext2]
    rfl

theorem send_from_directory_file_inv (listing : List DirEntry) (dirname filename d g : Str)
    (h : send_from_directory (some listing) dirname filename = .file d g) :
    d = dirname ∧ g = filename ∧ (⟨filename, true⟩ : DirEntry) ∈ listing := by
  rw [send_from_directory] at h
  by_cases hany : listing.any (fun e => e.isFile && decide (e.name = filename)) = true
  · rw [if_pos hany] at h
    have hdg := HttpResponse.file.inj h
    rcases List.any_eq_true.mp hany with ⟨e, he, hcond⟩
    rw [Bool.and_eq_true, decide_eq_true_eq] at hcond
    have he2 : e = (⟨filename, true⟩ : DirEntry) := by
      cases e
      simp only at hcond
      rw [hcond.2, hcond.1]
    refine ⟨hdg.1.symm, hdg.2.symm, ?_⟩
    rw [← he2]
    exact he
  · rw [if_neg hany] at h
    exact absurd h (by simp)

theorem bottle_image_file_imp (bottles_dir : Option (List DirEntry)) (filename d g : Str)
    (h : bottle_image bottles_dir filename = .file d g) :
    send_from_directory bottles_dir (str "bottles") filename = .file d g := by
  rw [bottle_image] at h
  by_cases h1 : (!(bottle_allowed_ext.contains (lower (splitext filename).2))) = true
  · rw [if_pos h1] at h
    exact absurd h (by simp)
  · rw [if_neg h1] at h
    by_cases h2 : (!(((build_bottle_lookup bottles_dir).map (·.2)).contains filename)) = true
    · rw [if_pos h2] at h
      exact absurd h (by simp)
    · rw [if_neg h2] at h
      exact h

/-! ### Claim theorems. -/

/-- Claim C1, counterexample. The claim says a record is in
`missingOnDisk` iff its reference corresponds to no file found in the
description directory. Counterexample: a record referencing `notes.txt`
while the existing description directory holds a regular file named
`notes.txt` — the file is found in the directory, yet the reporter still
lists the record as missing on disk, because the reporter compares only
against names ending in `.pdf`. -/
theorem C1_counterexample :
    scan_missing_pdf_on_disk [txt_ref_vine] (some [⟨str "notes.txt", true⟩])
        = [(txt_ref_vine, str "notes.txt")]
      ∧ str "notes.txt" ∈ dir_files (some [⟨str "notes.txt", true⟩]) := by
  decide

/-- Claim C1, amended: a record with a non-blank reference is in
`missingOnDisk` iff the description directory exists and the reference is
not among the directory's regular files whose lowercased name ends in
`.pdf` (rather than "any file found in the directory"); when the
directory does not exist no record is reported; and in the concrete
scenario of one record referencing `kab_sov.pdf` with an existing empty
description directory, `missingOnDisk` holds exactly that record and the
`/status.json` diff lists `kab_sov.pdf` under missing. -/
theorem C1_missing_on_disk :
    (∀ (vines : List Vine) (pdfs_dir : Option (List DirEntry)) (v : Vine),
      v ∈ vines → strip v.pdf_file ≠ [] →
        ((v, strip v.pdf_file) ∈ scan_missing_pdf_on_disk vines pdfs_dir ↔
          pdfs_dir.isSome = true ∧ strip v.pdf_file ∉ pdf_fs_files pdfs_dir))
    ∧ (∀ vines : List Vine, scan_missing_pdf_on_disk vines none = [])
    ∧ scan_missing_pdf_on_disk [kab_vine] (some []) = [(kab_vine, str "kab_sov.pdf")]
    ∧ status_pdfs_missing [kab_vine] (some []) = [str "kab_sov.pdf"] := by
  refine ⟨?_, scan_missing_pdf_on_disk_none, by decide, by decide⟩
  intro vines pd v hv hnb
  rw [mem_scan_missing_pdf_on_disk]
  constructor
  · rintro ⟨-, -, -, hsome, hnm⟩
    exact ⟨hsome, hnm⟩
  · rintro ⟨hsome, hnm⟩
    exact ⟨hv, rfl, hnb, hsome, hnm⟩

/-- Claim C1 witness: the amended equivalence instantiated on the
`kab_sov.pdf` scenario record over an existing empty directory. -/
theorem C1_missing_on_disk_witness :
    (kab_vine, str "kab_sov.pdf")
        ∈ scan_missing_pdf_on_disk [kab_vine] (some ([] : List DirEntry)) ↔
      (some ([] : List DirEntry)).isSome = true
        ∧ str "kab_sov.pdf" ∉ pdf_fs_files (some ([] : List DirEntry)) := by
  have hs : strip kab_vine.pdf_file = str "kab_sov.pdf" := by decide
  have h := C1_missing_on_disk.1 [kab_vine] (some []) kab_vine
    (List.mem_singleton.mpr rfl) (by decide)
  rwa [hs] at h

/-- Claim C2, counterexample. The claim says a record with a blank asset
reference gets no image. Counterexample: a record whose `pdf_file` is a
single space (blank but truthy) over a bottle directory holding ` .png`:
the catalog attaches the bottle URL, because the route tests Python
truthiness, not blankness. -/
theorem C2_counterexample :
    strip blank_ref_vine.pdf_file = []
      ∧ catalog_image_url (build_bottle_lookup (some [⟨str " .png", true⟩])) blank_ref_vine
          = some (str "/vinery/bottles/ .png") := by
  decide

/-- Claim C2, amended: for every record with a non-empty (rather than
non-blank) description asset whose lowercased stem is a key of the bottle
lookup, the catalog entry carries the bottle URL of the mapped filename;
for an empty reference, or a stem with no binding, the image is `None`. -/
theorem C2_image_url :
    ∀ (bottles_dir : Option (List DirEntry)) (v : Vine),
      (v.pdf_file = [] → catalog_image_url (build_bottle_lookup bottles_dir) v = none)
      ∧ (dict_get (build_bottle_lookup bottles_dir) (lower (splitext v.pdf_file).1) = none →
          catalog_image_url (build_bottle_lookup bottles_dir) v = none)
      ∧ (∀ bf, v.pdf_file ≠ [] →
          dict_get (build_bottle_lookup bottles_dir) (lower (splitext v.pdf_file).1)
            = some bf →
          catalog_image_url (build_bottle_lookup bottles_dir) v
            = some (url_for_bottle_image bf)) := by
  intro bd v
  refine ⟨fun h => ?_, fun h => ?_, fun bf hne h => ?_⟩
  · rw [catalog_image_url, if_pos h]
  · by_cases he : v.pdf_file = []
    · rw [catalog_image_url, if_pos he]
    · rw [catalog_image_url, if_neg he, h]
  · rw [catalog_image_url, if_neg hne, h]

/-- Claim C2 witness: the seed record `kab_sov.pdf` over a bottle
directory holding `kab_sov.png` receives that bottle's URL. -/
theorem C2_image_url_witness :
    catalog_image_url (build_bottle_lookup (some [⟨str "kab_sov.png", true⟩])) kab_vine
      = some (url_for_bottle_image (str "kab_sov.png")) := by
  apply (C2_image_url (some [⟨str "kab_sov.png", true⟩]) kab_vine).2.2
  · decide
  · decide

/-- Claim C4, counterexample. The claim says `unusedDescriptionFiles`
together with the referenced-and-present names covers the full on-disk
file set of an existing description directory. Counterexample: a
directory holding only the regular file `notes.txt` with no records —
both computed sets are empty, yet `notes.txt` is on disk, because the
reporter's on-disk set keeps only `.pdf`-suffixed names. -/
theorem C4_counterexample :
    str "notes.txt" ∈ dir_files (some [⟨str "notes.txt", true⟩])
      ∧ unused_pdf_files [] (some [⟨str "notes.txt", true⟩]) = []
      ∧ referenced_pdf_on_disk [] (some [⟨str "notes.txt", true⟩]) = [] := by
  decide

/-- Claim C4, amended: for an existing description directory,
`unusedDescriptionFiles` and the record-referenced names present on disk
are disjoint, and their union is the reporter's on-disk description set —
the directory's regular files with lowercased `.pdf` suffix (rather than
the full file set). -/
theorem C4_unused_partition :
    ∀ (vines : List Vine) (listing : List DirEntry),
      (∀ f : Str, ¬ (f ∈ unused_pdf_files vines (some listing)
          ∧ f ∈ referenced_pdf_on_disk vines (some listing)))
      ∧ (∀ f : Str, (f ∈ unused_pdf_files vines (some listing)
            ∨ f ∈ referenced_pdf_on_disk vines (some listing))
          ↔ f ∈ pdf_fs_files (some listing)) := by
  intro vines listing
  constructor
  · rintro f ⟨hu, hr⟩
    rw [unused_pdf_files, mem_sort_strs, List.mem_filter] at hu
    rw [referenced_pdf_on_disk, List.mem_filter] at hr
    rcases hu with ⟨-, hu2⟩
    have : (pdf_names_in_db vines).contains f = true := (contains_iff_mem _ _).mpr hr.1
    rw [this] at hu2
    simp at hu2
  · intro f
    constructor
    · rintro (hu | hr)
      · rw [unused_pdf_files, mem_sort_strs, List.mem_filter] at hu
        exact (mem_dedup f _).mp hu.1
      · rw [referenced_pdf_on_disk, List.mem_filter] at hr
        exact (contains_iff_mem _ _).mp hr.2
    · intro hf
      by_cases hdb : f ∈ pdf_names_in_db vines
      · right
        rw [referenced_pdf_on_disk, List.mem_filter]
        exact ⟨hdb, (contains_iff_mem _ _).mpr hf⟩
      · left
        rw [unused_pdf_files, mem_sort_strs, List.mem_filter]
        refine ⟨(mem_dedup f _).mpr hf, ?_⟩
        cases hc : (pdf_names_in_db vines).contains f with
        | false => rfl
        | true => exact absurd ((contains_iff_mem _ _).mp hc) hdb

/-- Claim C4 witness: the amended partition instantiated on one record
referencing `kab_sov.pdf` over a directory holding exactly that file. -/
theorem C4_unused_partition_witness :
    (str "kab_sov.pdf" ∈ unused_pdf_files [kab_vine] (some [⟨str "kab_sov.pdf", true⟩])
        ∨ str "kab_sov.pdf" ∈ referenced_pdf_on_disk [kab_vine]
            (some [⟨str "kab_sov.pdf", true⟩]))
      ↔ str "kab_sov.pdf" ∈ pdf_fs_files (some [⟨str "kab_sov.pdf", true⟩]) :=
  (C4_unused_partition [kab_vine] [⟨str "kab_sov.pdf", true⟩]).2 (str "kab_sov.pdf")

/-- Claim C5, counterexample. The claim says both decoders turn a decode
failure into a one-element list containing the raw stored value. The
reporter's decoder strips the raw value first: on the stored value
`" x"` — whitespace-prefixed, not valid JSON, so `json.loads` raises —
it yields `["x"]`, not `[" x"]`. -/
theorem C5_counterexample :
    scan_grape_values (fun _ => none) (str " x") ≠ [str " x"]
      ∧ scan_grape_values (fun _ => none) (str " x") = [str "x"] := by
  decide

/-- Claim C5, amended: on a non-empty grape value whose decode fails,
neither decoder raises; the catalog decoder yields the one-element list
holding the raw value, and the reporter's decoder yields the one-element
list holding the raw value stripped of surrounding whitespace. -/
theorem C5_decode_failure :
    ∀ (loads : Str → Option PyVal) (grape : Str),
      grape ≠ [] → loads grape = none →
      catalog_grapes loads grape = .plist [.pstr grape]
      ∧ scan_grape_values loads grape = [strip grape] := by
  intro loads g hne hl
  constructor
  · rw [catalog_grapes, if_neg hne, hl]
  · rw [scan_grape_values, if_neg hne, hl]

/-- Claim C5 witness: the amended statement instantiated on the stored
value `"oops"` with a failing parse. -/
theorem C5_decode_failure_witness :
    catalog_grapes (fun _ => none) (str "oops") = .plist [.pstr (str "oops")]
      ∧ scan_grape_values (fun _ => none) (str "oops") = [strip (str "oops")] :=
  C5_decode_failure (fun _ => none) (str "oops") (by decide) rfl

/-- Claim C3 (confirmed): when the bottle directory's regular files with
an allowed extension and a given stem are exactly two entries `a` then
`b` in listing order, the Asset Locator mapping binds the stem to `b` —
the entry seen last — while the reporter's duplicate-stem section holds
exactly the group for that stem listing both filenames (sorted), and that
group appears in the rendered duplicate list. -/
theorem C3_duplicate_bottle_stem :
    ∀ (listing : List DirEntry) (base a b : Str),
      (∀ e ∈ listing, e.isFile = true) →
      bottle_base_registry (some listing) base = [a, b] →
      dict_get (build_bottle_lookup (some listing)) base = some b
      ∧ duplicate_bottle_group (some listing) base = some (sort_strs [a, b])
      ∧ (base, sort_strs [a, b]) ∈ scan_duplicate_bottle_entries (some listing) := by
  intro listing base a b hf hreg
  have hc : lookup_candidates listing base = [a, b] :=
    (registry_eq_candidates listing base hf) ▸ hreg
  have hgroup : duplicate_bottle_group (some listing) base = some (sort_strs [a, b]) := by
    rw [duplicate_bottle_group, hreg]
    rfl
  refine ⟨?_, hgroup, ?_⟩
  · rw [dict_get_build_bottle_lookup, hc]
    rfl
  · have ha : a ∈ bottle_base_registry (some listing) base := by
      rw [hreg]
      exact List.mem_cons_self a [b]
    rw [bottle_base_registry] at ha
    rcases List.mem_filterMap.mp ha with ⟨e, he, hfe⟩
    by_cases hcond : (e.isFile && bottle_allowed_ext.contains (lower (splitext e.name).2)
        && decide (lower (splitext e.name).1 = base)) = true
    · rw [if_pos hcond] at hfe
      rw [Bool.and_eq_true, Bool.and_eq_true, decide_eq_true_eq] at hcond
      rcases hcond with ⟨⟨hfile, hext⟩, hbase⟩
      rw [scan_duplicate_bottle_entries, mem_sort_le, List.mem_filterMap]
      refine ⟨base, ?_, ?_⟩
      · rw [mem_dedup, List.mem_filterMap]
        refine ⟨e, he, ?_⟩
        rw [if_pos (by rw [Bool.and_eq_true]; exact ⟨hfile, hext⟩), hbase]
      · rw [hgroup]
        rfl
    · rw [if_neg hcond] at hfe
      exact absurd hfe (by simp)

/-- Claim C3 witness: the `kab_sov.png` / `kab_sov.jpg` scenario — the
mapping keeps the later `kab_sov.jpg`, the duplicate group lists both. -/
theorem C3_duplicate_bottle_stem_witness :
    dict_get (build_bottle_lookup
        (some [⟨str "kab_sov.png", true⟩, ⟨str "kab_sov.jpg", true⟩])) (str "kab_sov")
        = some (str "kab_sov.jpg")
      ∧ duplicate_bottle_group
          (some [⟨str "kab_sov.png", true⟩, ⟨str "kab_sov.jpg", true⟩]) (str "kab_sov")
        = some (sort_strs [str "kab_sov.png", str "kab_sov.jpg"])
      ∧ (str "kab_sov", sort_strs [str "kab_sov.png", str "kab_sov.jpg"])
        ∈ scan_duplicate_bottle_entries
            (some [⟨str "kab_sov.png", true⟩, ⟨str "kab_sov.jpg", true⟩]) :=
  C3_duplicate_bottle_stem [⟨str "kab_sov.png", true⟩, ⟨str "kab_sov.jpg", true⟩]
    (str "kab_sov") (str "kab_sov.png") (str "kab_sov.jpg") (by decide) (by decide)

/-- Claim C6 (confirmed): when the record-store query raises, the `/scan`
report is still produced — its `db_error` carries the exception message
and every record-derived section equals the section computed over an
empty record list — and `/status.json` still returns a payload whose
connectivity indicator is false. -/
theorem C6_store_failure :
    ∀ (e : Str) (loads : Str → Option PyVal)
      (pdfs_dir bottles_dir : Option (List DirEntry)) (vercel : Bool),
      scan_resources loads (.error e) pdfs_dir bottles_dir
        = { scan_resources loads (.ok []) pdfs_dir bottles_dir with db_error := some e }
      ∧ (status_json vercel (.error e) pdfs_dir).db_connected = false := by
  intro e loads pd bd vc
  exact ⟨rfl, rfl⟩

/-- Claim C7, counterexample. The claim says all five frequency tables of
the reporter, the sparkling one included, are sorted by descending count
then ascending label. Counterexample: a single non-sparkling record —
the sparkling section comes out `[(yes, 0), (no, 1), (other, 0)]`, a
fixed `yes`/`no`/`other` triple that puts the zero `yes` row before the
larger `no` count. -/
theorem C7_counterexample :
    ¬ sorted_by_count_then_label (sparkling_stats [kab_vine])
      ∧ sparkling_stats [kab_vine] = [(str "yes", 0), (str "no", 1), (str "other", 0)] := by
  decide

/-- Claim C7, amended: the color, sugar, country and grape frequency
tables are each sorted by descending count then ascending label; the
sparkling section is instead the fixed-order triple of the `yes` count,
the `no` count, and the total of all other states. -/
theorem C7_stats_sorted :
    ∀ (loads : Str → Option PyVal) (vines : List Vine),
      sorted_by_count_then_label (color_stats vines)
      ∧ sorted_by_count_then_label (sugar_stats vines)
      ∧ sorted_by_count_then_label (country_stats vines)
      ∧ sorted_by_count_then_label (grape_stats loads vines)
      ∧ sparkling_stats vines
          = [(str "yes", (sparkling_keys vines).count (str "yes")),
             (str "no", (sparkling_keys vines).count (str "no")),
             (str "other", ((sparkling_keys vines).filter
                (fun k => decide (k ≠ str "yes") && decide (k ≠ str "no"))).length)] := by
  intro loads vines
  have hs : ∀ items : List (Str × Nat), sorted_by_count_then_label (sort_stats items) := by
    intro items
    have hp := pairwise_sort_le stat_le stat_le_trans stat_le_total items
    rw [sorted_by_count_then_label]
    exact hp.imp (fun h => (stat_le_iff _ _).mp h)
  exact ⟨hs _, hs _, hs _, hs _, rfl⟩

/-- Claim C8, counterexample. The claim says a requested filename that is
a present value in the bottle lookup mapping is streamed. Counterexample:
a non-regular directory entry named `x.png` inside the bottle directory —
the lookup (built with no regular-file check) holds `x.png` as a value,
yet the request yields Not Found, because the final streaming step serves
only regular files. -/
theorem C8_counterexample :
    str "x.png" ∈ (build_bottle_lookup (some [⟨str "x.png", false⟩])).map (·.2)
      ∧ bottle_image (some [⟨str "x.png", false⟩]) (str "x.png") = .notFound := by
  decide

/-- Claim C8, amended: `GET /vinery/bottles/<filename>` responds Not
Found whenever the requested filename is not a present value of the
bottle lookup built for the request; when it is a present value and names
a regular file of the bottle directory, the file is streamed. -/
theorem C8_bottle_route :
    ∀ (bottles_dir : Option (List DirEntry)) (filename : Str),
      (filename ∉ (build_bottle_lookup bottles_dir).map (·.2) →
        bottle_image bottles_dir filename = .notFound)
      ∧ (∀ listing, bottles_dir = some listing →
          filename ∈ (build_bottle_lookup bottles_dir).map (·.2) →
          (⟨filename, true⟩ : DirEntry) ∈ listing →
          bottle_image bottles_dir filename = .file (str "bottles") filename) := by
  intro bd f
  refine ⟨bottle_image_notFound_of_not_mem bd f, ?_⟩
  rintro listing rfl hm hfmem
  have hext := (mem_values_build_bottle_lookup listing f hm).2
  have hcont : ((build_bottle_lookup (some listing)).map (·.2)).contains f = true :=
    (contains_iff_mem _ _).mpr hm
  have hany : listing.any (fun e => e.isFile && decide (e.name = f)) = true :=
    List.any_eq_true.mpr ⟨⟨f, true⟩, hfmem, by simp⟩
  rw [bottle_image]
  simp only [hext, hcont, Bool.not_true, Bool.false_eq_true, if_false]
  rw [send_from_directory, if_pos hany]

/-- Claim C8 witness: a regular `kab_sov.png` in the bottle directory is
streamed when requested by its exact lookup-value name. -/
theorem C8_bottle_route_witness :
    bottle_image (some [⟨str "kab_sov.png", true⟩]) (str "kab_sov.png")
      = .file (str "bottles") (str "kab_sov.png") :=
  (C8_bottle_route (some [⟨str "kab_sov.png", true⟩]) (str "kab_sov.png")).2
    [⟨str "kab_sov.png", true⟩] rfl (by decide) (by decide)

/-- Claim C9, counterexample. The claim says the asset routes strip
directory components, so a request containing separators gets the same
response as its final component. Counterexample: with a regular
`kab_sov.png` in the bottle directory, requesting `sub/kab_sov.png`
yields Not Found while its final component `kab_sov.png` is streamed —
the route never normalizes, it compares the raw request against lookup
values. -/
theorem C9_counterexample :
    basename (str "sub/kab_sov.png") = str "kab_sov.png"
      ∧ bottle_image (some [⟨str "kab_sov.png", true⟩]) (str "sub/kab_sov.png") = .notFound
      ∧ bottle_image (some [⟨str "kab_sov.png", true⟩]) (str "kab_sov.png")
          = .file (str "bottles") (str "kab_sov.png") := by
  decide

/-- Claim C9, amended: the asset routes perform no normalization. Over a
bottle directory whose entry names contain no path separator, any request
containing a separator is answered Not Found by the bottle route (its
response therefore need not agree with that of the final component), and
either route streams only a name that is exactly a regular-file entry of
its own directory — so no file outside the target directory is ever
streamed. -/
theorem C9_no_normalization :
    ∀ (listing : List DirEntry) (filename : Str),
      (∀ e ∈ listing, '/' ∉ e.name) →
      ('/' ∈ filename → bottle_image (some listing) filename = .notFound)
      ∧ (∀ d g, bottle_image (some listing) filename = .file d g →
          g = filename ∧ (⟨filename, true⟩ : DirEntry) ∈ listing)
      ∧ (∀ d g, pdfs_route (some listing) filename = .file d g →
          g = filename ∧ (⟨filename, true⟩ : DirEntry) ∈ listing) := by
  intro listing f hsep
  refine ⟨?_, ?_, ?_⟩
  · intro hslash
    apply bottle_image_notFound_of_not_mem
    intro hm
    rcases (mem_values_build_bottle_lookup listing f hm).1 with ⟨e, he, hname⟩
    exact hsep e he (hname ▸ hslash)
  · intro d g h
    have hsend := bottle_image_file_imp (some listing) f d g h
    have := send_from_directory_file_inv listing (str "bottles") f d g hsend
    exact ⟨this.2.1, this.2.2⟩
  · intro d g h
    rw [pdfs_route] at h
    have := send_from_directory_file_inv listing (str "pdfs") f d g h
    exact ⟨this.2.1, this.2.2⟩

/-- Claim C9 witness: the separator-containing request
`sub/kab_sov.png` is answered Not Found over a directory holding the
regular file `kab_sov.png`. -/
theorem C9_no_normalization_witness :
    bottle_image (some [⟨str "kab_sov.png", true⟩]) (str "sub/kab_sov.png") = .notFound :=
  (C9_no_normalization [⟨str "kab_sov.png", true⟩] (str "sub/kab_sov.png")
    (by decide)).1 (by decide)

/-- Claim C10 (confirmed): when the description directory does not exist,
the two drift endpoints disagree — `/status.json` lists every non-empty
record-referenced filename as missing (the on-disk set is taken empty),
while `/scan` reports no record missing on disk at all. -/
theorem C10_absent_dir_divergence :
    ∀ vines : List Vine,
      (∀ n : Str, n ∈ status_pdfs_missing vines none ↔
        ∃ v ∈ vines, v.pdf_file = n ∧ n ≠ [])
      ∧ scan_missing_pdf_on_disk vines none = [] := by
  intro vines
  refine ⟨?_, scan_missing_pdf_on_disk_none vines⟩
  intro n
  rw [status_pdfs_missing, mem_sort_strs, List.mem_filter]
  constructor
  · rintro ⟨hdb, -⟩
    rw [status_db_files, mem_dedup, List.mem_map] at hdb
    rcases hdb with ⟨v, hvf, hvn⟩
    rw [List.mem_filter, decide_eq_true_eq] at hvf
    exact ⟨v, hvf.1, hvn, hvn ▸ hvf.2⟩
  · rintro ⟨v, hv, hvn, hne⟩
    constructor
    · rw [status_db_files, mem_dedup, List.mem_map]
      refine ⟨v, ?_, hvn⟩
      rw [List.mem_filter, decide_eq_true_eq]
      exact ⟨hv, hvn.symm ▸ hne⟩
    · rw [status_fs_files]
      rfl

/-- Claim C10 witness: with no description directory, the seed record's
`kab_sov.pdf` reference appears in the `/status.json` missing list. -/
theorem C10_absent_dir_divergence_witness :
    str "kab_sov.pdf" ∈ status_pdfs_missing [kab_vine] none :=
  ((C10_absent_dir_divergence [kab_vine]).1 (str "kab_sov.pdf")).mpr
    ⟨kab_vine, List.mem_singleton.mpr rfl, by decide, by decide⟩

/-- Claim C6 witness: a concrete store failure still yields a payload
with the connectivity indicator false. -/
theorem C6_store_failure_witness :
    (status_json false (.error (str "database is locked")) none).db_connected = false :=
  (C6_store_failure (str "database is locked") (fun _ => none) none none false).2

/-- Claim C7 witness: the color table of a concrete record list is
sorted by descending count then ascending label. -/
theorem C7_stats_sorted_witness :
    sorted_by_count_then_label (color_stats [kab_vine]) :=
  (C7_stats_sorted (fun _ => none) [kab_vine]).1
